import Mathlib

/-!
Shallow embedding of the pysight volume/frame reconstruction core.

Source files embedded here:
  * `src/pysight/validation_tools.py`  (marker reconciliation)
  * `src/pysight/movie_tools.py`       (volume partitioning and histogramming)

Conventions of the embedding:
  * `uint64` timestamps are modelled as `Nat` (the experiments' values are far
    below 2^64, and no subtraction in the modelled paths wraps; pandas
    `Series.diff` converts to float64 and yields true signed differences, so
    differences are modelled in `ℤ`).
  * Python / numpy floats are modelled as exact rationals `ℚ`; `int(x)` and
    numpy integer casts of nonnegative floats are truncation toward zero,
    modelled by `pyTrunc` / `Int.floor` as appropriate.
  * Fallible Python code (raised exceptions) is modelled with
    `Except String`; the string carries the kind of exception raised.
  * A pandas `DataFrame` column is modelled as a `List` of its values, in row
    order; the mapping `dict_of_data` is a structure of `Option (List Nat)`
    fields (`none` = key absent).
-/

/-- Python `int(x)` on a float: truncation toward zero, on exact rationals. -/
def pyTrunc (q : ℚ) : ℤ :=
  if 0 ≤ q then ⌊q⌋ else ⌈q⌉

/-- Model of `Series.diff()` dropping the leading NaN: the list of successive
differences `l[i+1] - l[i]` as signed integers (pandas upcasts `uint64` to
float64, so differences are true signed values). -/
def listDiffs (l : List Nat) : List ℤ :=
  List.zipWith (fun b a => (b : ℤ) - (a : ℤ)) l.tail l

/-- Model of `Series.diff().mean()`: the mean of the `n-1` successive differences,
`none` when fewer than two samples exist (pandas yields NaN there). -/
def meanDiff? (l : List Nat) : Option ℚ :=
  if l.length ≤ 1 then none
  else some (((listDiffs l).sum : ℚ) / ((l.length - 1 : Nat) : ℚ))

/-- Model of `np.unique(...)`: sorted list of the distinct values. -/
def npUnique (l : List Nat) : List Nat :=
  l.dedup.insertionSort (· ≤ ·)

/-- Model of `np.median` of a list of `Nat`, followed by the `np.uint64` truncation
that `Movie.list_of_volume_times` applies to `last + median`: the middle
element for odd length, and `(a + b) / 2` (integer division, i.e. the float
average truncated) for even length. -/
def medianFloorNat (l : List Nat) : Nat :=
  let s := l.insertionSort (· ≤ ·)
  if l.length % 2 = 1 then s.getD (l.length / 2) 0
  else (s.getD (l.length / 2 - 1) 0 + s.getD (l.length / 2) 0) / 2

/-- The mapping channel-name to event table handed to the reconciliation
functions (`dict_of_data`); `none` models an absent key.  Only the `abs_time`
column of each table is relevant to the embedded code. -/
structure DictOfData where
  pmt1 : Option (List Nat) := none
  pmt2 : Option (List Nat) := none
  lines : Option (List Nat) := none
  frames : Option (List Nat) := none
deriving DecidableEq, Repr

/-! ## validation_tools.create_line_array -/

/-- Model of `validation_tools.create_line_array`: uniformly spaced start-of-line
times.  `np.arange(0, last_event_time, step=last_event_time/total)` produces
exactly `total` float points `i * last_event_time / total`, truncated to
`uint64`. -/
def create_line_array (last_event_time : ℤ) (num_of_lines num_of_frames : ℤ) :
    Except String (List Nat) :=
  if num_of_lines ≤ 0 ∨ num_of_frames ≤ 0 then
    .error "ValueError: Number of lines and frames has to be positive."
  else if last_event_time ≤ 0 then
    .error "ValueError: Last event time is zero or negative."
  else
    let total : ℤ := num_of_lines * num_of_frames
    .ok ((List.range total.toNat).map fun i =>
      (⌊((i : ℚ) * (last_event_time : ℚ)) / (total : ℚ)⌋).toNat)

/-! ## validation_tools.create_frame_array -/

/-- Python slicing `l[0 : stop : step]` for positive `step`. -/
def pySliceStep (l : List Nat) (stop step : Nat) : List Nat :=
  (List.range l.length).filterMap fun i =>
    if i < stop ∧ i % step = 0 then l.get? i else none

/-- Model of `validation_tools.create_frame_array`: start-of-frame times derived from
the recorded lines (every line when bidirectional, every 2nd otherwise),
taking every `pixels`-th of them; falls back to a uniform `linspace` with
`endpoint=False` when fewer lines than pixels were recorded. -/
def create_frame_array (lines : List Nat) (last_event_time : ℤ)
    (pixels : ℤ) (bidir : Bool) : Except String (List Nat) :=
  if lines = [] then .error "ValueError: Wrong input detected."
  else if last_event_time ≤ 0 then
    .error "ValueError: Last event time is zero or negative."
  else
    let lines_for_frame_generation :=
      if bidir then lines else pySliceStep lines lines.length 2
    let num_of_recorded_lines := lines_for_frame_generation.length
    let actual_num_of_frames : Nat :=
      max (num_of_recorded_lines / pixels.toNat) 1
    if (num_of_recorded_lines : ℤ) < pixels then
      -- np.linspace(0, last_event_time, num=actual, endpoint=False, dtype=uint64)
      .ok ((List.range actual_num_of_frames).map fun i =>
        (⌊((i : ℚ) * (last_event_time : ℚ)) / (actual_num_of_frames : ℚ)⌋).toNat)
    else
      let unnecess_lines := num_of_recorded_lines % pixels.toNat
      .ok (pySliceStep lines_for_frame_generation
            (num_of_recorded_lines - unnecess_lines) pixels.toNat)

/-! ## validation_tools.validate_line_input -/

/-- One flagged entry of `diff.pct_change(periods=10) > 15`: with exact float
semantics, `num / den - 1 > 15`; division by zero gives `+inf` (flagged) for a
positive numerator and `-inf`/NaN (not flagged) otherwise. -/
def pctChangeFlag (num den : ℤ) : Bool :=
  if den = 0 then decide (0 < num)
  else decide ((num : ℚ) / (den : ℚ) - 1 > 15)

/-- The count of entries selected by
`Lines.diff().pct_change(periods=10) > 15`.  The diff series carries NaN at
position 0, so `pct_change` (which divides `diff[i]` by `diff[i-10]`) is NaN
for every `i ≤ 10` and real only from `i = 11` on. -/
def linesCorruptCount (l : List Nat) : Nat :=
  ((List.range l.length).filter fun i =>
    decide (11 ≤ i) &&
      pctChangeFlag ((l.getD i 0 : ℤ) - (l.getD (i - 1) 0 : ℤ))
        ((l.getD (i - 10) 0 : ℤ) - (l.getD (i - 11) 0 : ℤ))).length

/-- Model of `validation_tools.validate_line_input`.  Returns the updated
`dict_of_data` together with `line_delta` (`none` models the NaN that pandas
produces when the mean is taken over zero differences). -/
def validate_line_input (dict_of_data : DictOfData) (cols_in_data : Nat)
    (num_of_lines num_of_frames : ℤ) (last_event_time : ℤ) :
    Except String (DictOfData × Option ℚ) :=
  if num_of_lines = -1 then .error "ValueError: No number of lines input received."
  else if num_of_frames = -1 then .error "ValueError: No number of frames received."
  else if last_event_time = -1 then .error "ValueError: No last event time received."
  else if cols_in_data = 0 then .error "ValueError: No columns in data."
  else
    match dict_of_data.lines with
    | some ll =>
      if ll.length = 0 then .error "ZeroDivisionError" else
      let corrupt_frac_num := linesCorruptCount ll
      if ((corrupt_frac_num : ℚ) / (ll.length : ℚ) > 1/10) ∧ dict_of_data.frames = none then
        .error "ValueError: Line data was corrupt. Please rerun PySight without a line channel."
      else if ((corrupt_frac_num : ℚ) / (ll.length : ℚ) > 1/10) ∧ dict_of_data.frames ≠ none then
        match create_line_array last_event_time num_of_lines num_of_frames with
        | .error e => .error e
        | .ok line_array =>
          .ok ({ dict_of_data with lines := some line_array },
               some ((last_event_time : ℚ) / ((num_of_lines : ℚ) * (num_of_frames : ℚ))))
      else if ((corrupt_frac_num : ℚ) / (ll.length : ℚ) < 1/10) then
        match meanDiff? ll with
        | none =>
          -- line_delta is NaN; `NaN < 0.05` is False, the table is kept as-is
          .ok (dict_of_data, none)
        | some line_delta =>
          -- zeroth_line_delta = abs(Lines[0] - line_delta) / line_delta
          if line_delta ≠ 0 ∧ |((ll.getD 0 0 : ℤ) : ℚ) - line_delta| / line_delta < 1/20 then
            .ok ({ dict_of_data with lines := some (0 :: ll) }, some line_delta)
          else
            .ok (dict_of_data, some line_delta)
      else
        -- corrupt fraction exactly 1/10: the Python function falls through and
        -- implicitly returns None, which the caller cannot unpack
        .error "TypeError: cannot unpack None"
    | none =>
      match create_line_array last_event_time num_of_lines num_of_frames with
      | .error e => .error e
      | .ok line_array =>
        .ok ({ dict_of_data with lines := some line_array },
             some ((last_event_time : ℚ) / ((num_of_lines : ℚ) * (num_of_frames : ℚ))))

/-! ## validation_tools.validate_frame_input -/

/-- Model of `validation_tools.validate_frame_input`: when a Frames table is present a
zero-time row (`[[0] * len(cols_in_data)]`) is prepended unconditionally;
otherwise the frame starts are synthesized from the Lines table. -/
def validate_frame_input (dict_of_data : DictOfData) (cols_in_data : Nat)
    (line_delta : ℤ) (num_of_lines : ℤ) (last_event_time : ℤ) (bidir : Bool) :
    Except String DictOfData :=
  if line_delta = -1 then .error "ValueError: No line delta input received."
  else if num_of_lines = -1 then .error "ValueError: No number of lines received."
  else if last_event_time = -1 then .error "ValueError: No last event time input received."
  else if cols_in_data = 0 then .error "ValueError: No columns in data."
  else
    match dict_of_data.frames with
    | some fr => .ok { dict_of_data with frames := some (0 :: fr) }
    | none =>
      match dict_of_data.lines with
      | none => .error "KeyError: Lines"
      | some ll =>
        match create_frame_array ll last_event_time num_of_lines bidir with
        | .error e => .error e
        | .ok frame_array => .ok { dict_of_data with frames := some frame_array }

/-! ## validation_tools.validate_laser_input -/

/-- Model of `validation_tools.validate_laser_input`: keeps the pulses whose successive
difference `d` satisfies `floor(1/(laser_freq*binwidth)) ≤ d ≤
ceil(1/(laser_freq*binwidth))`, re-adds the first pulse (`pulses.loc[:0]`),
and returns the warning flag `len(kept) < 0.9 * len(pulses)` computed before
the first pulse is re-added. -/
def validate_laser_input (pulses : List Nat) (laser_freq binwidth : ℚ) :
    List Nat × Bool :=
  let interval : ℚ := 1 / (laser_freq * binwidth)
  let kept := (List.range pulses.length).filter fun i =>
    decide (1 ≤ i) &&
      decide ((pulses.getD i 0 : ℤ) - (pulses.getD (i - 1) 0 : ℤ) ≤ ⌈interval⌉) &&
      decide (⌊interval⌋ ≤ (pulses.getD i 0 : ℤ) - (pulses.getD (i - 1) 0 : ℤ))
  let pulses_final := kept.map fun i => pulses.getD i 0
  let warn := decide ((pulses_final.length : ℚ) < 9/10 * (pulses.length : ℚ))
  (pulses.take 1 ++ pulses_final, warn)

/-! ## validation_tools.rectify_photons_in_uneven_lines -/

/-- One photon row as seen by `rectify_photons_in_uneven_lines`: its absolute
timestamp, its `time_rel_line_pre_drop` value, and the entry of
`sorted_indices` aligned with it (the index of its assigned line). -/
structure PhotonRow where
  abs_time : Nat
  time_rel_line_pre_drop : ℤ
  sorted_index : Nat
deriving DecidableEq, Repr

/-- Model of `validation_tools.rectify_photons_in_uneven_lines`.  Output rows are
`(abs_time, time_rel_line)`.  `phase_term` models the float
`np.sin(phase) * lines[1]` added to the flipped photons (an arbitrary real,
kept exact as `ℚ`).  In the bidirectional branch a photon of an uneven line
looks up the start of the *next* line (`lines.loc[sorted_indices + 1]`), a
KeyError when absent.  In the unidirectional `keep_unidir` branch the code
sets the *row* `df.loc['Lines']` and never creates a `time_rel_line` column,
so the final filter `df.loc[:, 'time_rel_line'] >= 0` raises KeyError. -/
def rectify_photons_in_uneven_lines (df : List PhotonRow) (lines : List Nat)
    (bidir : Bool) (phase_term : ℚ) (keep_unidir : Bool) :
    Except String (List (Nat × ℚ)) :=
  if bidir then
    match (df.mapM fun r =>
        if r.sorted_index % 2 = 0 then
          Except.ok (r.abs_time, (r.time_rel_line_pre_drop : ℚ))
        else
          match lines.get? (r.sorted_index + 1) with
          | none => Except.error "KeyError: lines.loc"
          | some next_line =>
            Except.ok (r.abs_time,
              ((next_line : ℤ) - (r.abs_time : ℤ) : ℤ) + phase_term)) with
    | .error e => .error e
    | .ok rows => .ok (rows.filter fun p => decide (0 ≤ p.2))
  else if !keep_unidir then
    .ok (((df.filter fun r => r.sorted_index % 2 ≠ 1).map fun r =>
        (r.abs_time, (r.time_rel_line_pre_drop : ℚ))).filter fun p => decide (0 ≤ p.2))
  else
    .error "KeyError: 'time_rel_line'"

/-! ## validation_tools.calc_last_event_time -/

/-- Model of `validation_tools.calc_last_event_time`.  Priority: Frames table, then
Lines table, then the maximum raw PMT timestamp.  All pandas means are exact
rationals truncated by Python `int()`; a mean over zero differences is NaN and
`int(NaN)` raises (modelled as an error). -/
def calc_last_event_time (dict_of_data : DictOfData) (lines_per_frame : ℤ) :
    Except String ℤ :=
  if lines_per_frame < 1 then
    .error "ValueError: No lines per frame value received, or value was corrupt."
  else if dict_of_data.pmt1 = none then
    .error "ValueError: No PMT1 channel in dict_of_data."
  else
    match dict_of_data.frames with
    | some fl =>
      match fl.getLast? with
      | none => .error "IndexError: single positional indexer is out-of-bounds"
      | some last_frame_time =>
        if fl.length = 1 then .ok (2 * (last_frame_time : ℤ))
        else
          match meanDiff? fl with
          | none => .error "ValueError: cannot convert float NaN to integer"
          | some m => .ok ((last_frame_time : ℤ) + pyTrunc m)
    | none =>
      match dict_of_data.lines with
      | some ll =>
        let n := ll.length
        let dv := n / lines_per_frame.toNat
        let md := n % lines_per_frame.toNat
        if (n : ℤ) > lines_per_frame * ((dv : ℤ) + 1) then
          -- unreachable: n = lpf*dv + md with md < lpf, so n < lpf*(dv+1)
          let last_line_of_last_frame := (ll.getD (dv * lines_per_frame.toNat - 1) 0 : ℤ)
          let frame_diff := last_line_of_last_frame -
            (ll.getD ((dv - 1) * lines_per_frame.toNat) 0 : ℤ)
          .ok (last_line_of_last_frame + frame_diff)
        else if md = 0 then
          match ll.getLast?, meanDiff? ll with
          | some last_line, some m => .ok (pyTrunc ((last_line : ℚ) + m))
          | none, _ => .error "IndexError: single positional indexer is out-of-bounds"
          | _, none => .error "ValueError: cannot convert float NaN to integer"
        else if (n : ℤ) < lines_per_frame * ((dv : ℤ) + 1) then
          let missing_lines := lines_per_frame - (md : ℤ)
          match ll.getLast?, meanDiff? ll with
          | some last_line, some m =>
            .ok ((last_line : ℤ) + (missing_lines + 1) * pyTrunc m)
          | none, _ => .error "IndexError: single positional indexer is out-of-bounds"
          | _, none => .error "ValueError: cannot convert float NaN to integer"
        else
          .error "TypeError: cannot unpack None"
      | none =>
        match dict_of_data.pmt1 with
        | none => .error "ValueError: No PMT1 channel in dict_of_data."
        | some p1 =>
          match p1.max? with
          | none => .error "pandas: max of empty series is NaN"
          | some max_pmt1 =>
            match dict_of_data.pmt2 with
            | none => .ok (max_pmt1 : ℤ)
            | some p2 => .ok ((max max_pmt1 (p2.foldl max 0) : Nat) : ℤ)

/-! ## movie_tools: Movie.list_of_volume_times -/

/-- Model of `Movie.list_of_volume_times`: the sorted unique values of the `Frames`
index level, with one closing boundary appended at the last unique start plus
the median inter-frame difference (more than one volume) or plus
`max(time_rel_frames)` (exactly one volume).  `frames_level` are the per-row
values of the photon table's `Frames` index level, `time_rel_frames` the
per-row values of that column.  An empty table raises. -/
def list_of_volume_times (frames_level : List Nat) (time_rel_frames : List Nat) :
    Except String (List Nat) :=
  let volume_times := npUnique frames_level
  match volume_times.getLast? with
  | none => .error "IndexError: list index out of range"
  | some last =>
    if 1 < volume_times.length then
      .ok (volume_times ++ [last + medianFloorNat
        (List.zipWith (fun b a => b - a) volume_times.tail volume_times)])
    else
      match time_rel_frames.max? with
      | none => .error "ValueError: zero-size array reduction"
      | some diff_between_frames => .ok (volume_times ++ [last + diff_between_frames])

/-! ## movie_tools: Volume and its histogramming -/

/-- The columns and index levels of one volume's slice of the photon table
(`Volume.data`), row-aligned lists. -/
structure VolData where
  time_rel_frames : List Nat
  time_rel_line : List ℤ
  phase : Option (List ℚ) := none
  time_rel_pulse : Option (List Nat) := none
  lines_level : List Nat := []
  lines_categories : List Nat := []
deriving DecidableEq, Repr

/-- Model of `movie_tools.Volume` (the attrs record), with its `data` reduced to the
fields the embedded methods read. -/
structure Volume where
  data : VolData
  x_pixels : Nat := 512
  y_pixels : Nat := 512
  z_pixels : Nat := 1
  number : Nat := 1
  reprate : ℚ := 80000000
  end_time : Nat := 100
  binwidth : ℚ := 1/1250000000
  bidir : Bool := false
  fill_frac : ℚ := 80
  abs_start_time : Nat := 0
  empty : Bool := false
  censor : Bool := false
  line_delta : ℤ := 158000
  use_sweeps : Bool := false
deriving DecidableEq, Repr

/-- Model of `movie_tools.metadata_ydata`: start and end of the y axis.  Returns
`(0, 1)` when at most one distinct line is observed in the volume, else the
(possibly halved) line delta scaled by the fill fraction, truncated by
`int()`.  `jitter` and `sweeps` are accepted and ignored, as in the source. -/
def metadata_ydata (lines_level : List Nat) (jitter : ℚ) (bidir : Bool)
    (fill_frac : ℚ) (delta : ℤ) (sweeps : Bool) : ℤ × ℤ :=
  if (npUnique lines_level).length ≤ 1 then (0, 1)
  else
    let d : ℚ := if bidir then (delta : ℚ) else (delta : ℚ) / 2
    let lines_end : ℚ := if fill_frac > 0 then d * fill_frac / 100 else d
    (0, pyTrunc lines_end)

/-- Model of `movie_tools.create_linspace`: `np.linspace(start, stop, num)` followed by
`assert np.all(np.diff(linspaces) > 0)` (an `AssertionError` when edges are
not strictly increasing). -/
def create_linspace (start stop : ℚ) (num : Nat) : Except String (List ℚ) :=
  let linspaces :=
    if num = 1 then [start]
    else (List.range num).map fun i => start + (i : ℚ) * (stop - start) / ((num : ℚ) - 1)
  if (List.zip linspaces linspaces.tail).all (fun p => decide (p.1 < p.2)) then
    .ok linspaces
  else .error "AssertionError"

/-- One axis descriptor of `Volume.metadata` (the `Struct(start, end, num)`
values keyed by axis name; `end` is a Lean keyword, hence `stop`). -/
structure AxisMeta where
  key : String
  start : ℚ
  stop : ℚ
  num : Nat
deriving DecidableEq, Repr

/-- Model of `Volume.metadata`: the ordered axis descriptors — Volume, Y, then Z when a
`Phase` column exists and Laser when a `time_rel_pulse` column exists.  A zero
`reprate * binwidth` raises `ZeroDivisionError`, caught and retried with a
default 80.3 MHz rate (which re-raises when `binwidth` is itself zero); the
laser axis end is cast with `.astype(np.uint8)` (wraps modulo 256). -/
def Volume.metadata (v : Volume) : Except String (List AxisMeta) :=
  let jitter : ℚ := 1/50
  let volume_axis : AxisMeta := ⟨"Volume", 0, (v.end_time : ℚ), v.x_pixels + 1⟩
  let yd := metadata_ydata v.data.lines_level jitter v.bidir v.fill_frac
    v.line_delta v.use_sweeps
  let y_axis : AxisMeta :=
    if yd.2 = 1 then ⟨"Y", (yd.1 : ℚ), (v.end_time : ℚ), v.y_pixels + 1⟩
    else ⟨"Y", (yd.1 : ℚ), (yd.2 : ℚ), v.y_pixels + 1⟩
  let z_axes : List AxisMeta :=
    match v.data.phase with
    | some _ => [⟨"Z", -1, 1, v.z_pixels + 1⟩]
    | none => []
  match v.data.time_rel_pulse with
  | none => .ok ([volume_axis, y_axis] ++ z_axes)
  | some _ =>
    if v.reprate * v.binwidth ≠ 0 then
      let laser_end : Nat := ((⌈1 / (v.reprate * v.binwidth)⌉).emod 256).toNat
      .ok ([volume_axis, y_axis] ++ z_axes ++ [⟨"Laser", 0, (laser_end : ℚ), laser_end + 1⟩])
    else if v.binwidth ≠ 0 then
      let laser_end : Nat := ((⌈1 / (80300000 * v.binwidth)⌉).emod 256).toNat
      .ok ([volume_axis, y_axis] ++ z_axes ++ [⟨"Laser", 0, (laser_end : ℚ), laser_end + 1⟩])
    else .error "ZeroDivisionError"

/-- Model of `Volume.__create_line_array`: histogram edges of the Volume axis, from the
sorted categories of the `Lines` index level.  With more than one boundary but
fewer than `x_pixels`, a `ValueError`; with at least `x_pixels`, the first
`x_pixels` boundaries plus one synthetic edge at
`lines[x_pixels - 1] + np.diff(lines).mean()` (uint64-truncated); with at most
one boundary, `np.r_[lines, lines + end_time]`. -/
def Volume.create_line_array (v : Volume) : Except String (List Nat) :=
  let lines := v.data.lines_categories.insertionSort (· ≤ ·)
  if 1 < lines.length then
    if lines.length < v.x_pixels then
      .error "ValueError: Not enough line events in volume."
    else
      let mean_diff : ℚ := ((listDiffs lines).sum : ℚ) / ((lines.length - 1 : Nat) : ℚ)
      let anchor : Nat :=
        if v.x_pixels = 0 then lines.getLastD 0 else lines.getD (v.x_pixels - 1) 0
      .ok (lines.take v.x_pixels ++ [(⌊(anchor : ℚ) + mean_diff⌋).toNat])
  else
    .ok (lines ++ lines.map (· + v.end_time))

/-- Model of `Volume.__create_hist_edges` (non-empty case): per-axis edge vectors, the
Volume axis from the line signal and every other axis from `create_linspace`;
also returns `num_of_dims`. -/
def Volume.create_hist_edges (v : Volume) : Except String (List (List ℚ) × Nat) :=
  match v.metadata with
  | .error e => .error e
  | .ok md =>
    match (md.mapM fun ax =>
        if ax.key = "Volume" then
          match v.create_line_array with
          | .error e => Except.error e
          | .ok la => Except.ok (la.map fun n => (n : ℚ))
        else create_linspace ax.start ax.stop ax.num) with
    | .error e => .error e
    | .ok list_of_edges => .ok (list_of_edges, md.length)

/-- A numpy ndarray of integer counts: a shape and an entry function over
index tuples (entries at out-of-shape tuples are irrelevant). -/
structure NDArray where
  shape : List Nat
  entry : List Nat → ℤ

/-- Model of `np.zeros(shape, dtype=np.int16)`. -/
def np_zeros (shape : List Nat) : NDArray :=
  { shape := shape, entry := fun _ => 0 }

/-- Model of `.astype(np.int16)`: wrap into the signed 16-bit range. -/
def int16Wrap (z : ℤ) : ℤ :=
  ((z + 32768) % 65536) - 32768

/-- Entrywise `.astype(np.int16)` on an ndarray. -/
def astype_int16 (d : NDArray) : NDArray :=
  { shape := d.shape, entry := fun ix => int16Wrap (d.entry ix) }

/-- The bin index of value `v` for one axis's edge vector: bins are
right-open, the last bin right-closed, values outside the range dropped —
`np.histogramdd`'s per-axis rule. -/
def binIdx (edges : List ℚ) (v : ℚ) : Option Nat :=
  let nb := edges.length - 1
  (List.range nb).find? fun i =>
    decide (edges.getD i 0 ≤ v) &&
      (decide (v < edges.getD (i + 1) 0) ||
        (decide (i + 1 = nb) && decide (v = edges.getD (i + 1) 0)))

/-- Model of `np.histogramdd(sample, bins=edges)`: the count, per index tuple, of the
sample rows all of whose coordinates fall in that tuple's bins. -/
def histogramdd (sample : List (List ℚ)) (edges : List (List ℚ)) : NDArray :=
  { shape := edges.map fun e => e.length - 1,
    entry := fun ix =>
      ((sample.filter fun row =>
        decide (row.length = edges.length) && decide (ix.length = edges.length) &&
          ((List.range edges.length).all fun d =>
            binIdx (edges.getD d []) (row.getD d 0) == some (ix.getD d 0))).length : ℤ) }

/-- The per-row sample matrix `data_to_be_hist` of `Volume.create_hist`:
columns `time_rel_frames`, `time_rel_line`, then `Phase` and
`time_rel_pulse` when present. -/
def dataToBeHist (d : VolData) : List (List ℚ) :=
  (List.range d.time_rel_frames.length).map fun i =>
    [((d.time_rel_frames.getD i 0 : Nat) : ℚ), ((d.time_rel_line.getD i 0 : ℤ) : ℚ)] ++
      (match d.phase with
       | some p => [p.getD i 0]
       | none => []) ++
      (match d.time_rel_pulse with
       | some tp => [((tp.getD i 0 : Nat) : ℚ)]
       | none => [])

/-- All index tuples of a shape, row-major. -/
def ndIndices (shape : List Nat) : List (List Nat) :=
  shape.foldr (fun n acc => (List.range n).flatMap fun i => acc.map (i :: ·)) [[]]

/-- Model of `np.sum(data, axis=-1)`: sum over the last axis. -/
def npSumLast (d : NDArray) : NDArray :=
  { shape := d.shape.dropLast,
    entry := fun ix =>
      ((List.range (d.shape.getLastD 0)).map fun k => d.entry (ix ++ [k])).sum }

/-- Model of `np.argwhere(np.sum(data, axis=-1) > 1)`: the index tuples (row-major) of
the bins whose summed count across the last axis exceeds 1. -/
def censor_rel_idx (data : NDArray) : List (List Nat) :=
  (ndIndices (npSumLast data).shape).filter fun ix => decide (1 < (npSumLast data).entry ix)

/-- Model of `Volume.__censor_correction`: computes the index set of over-full bins and
a squeezed sub-array, but writes nothing back — the input histogram is
returned unchanged.  `np.split(rel_idx, 2, axis=1)` only succeeds when the
index tuples have an even number of columns (for a histogram of odd rank,
e.g. 3-D); otherwise numpy raises. -/
def censor_correction (data : NDArray) : Except String NDArray :=
  let rel_idx := censor_rel_idx data
  if (data.shape.length - 1) % 2 = 0 then
    let split0 := rel_idx.map (List.take ((data.shape.length - 1) / 2))
    let split1 := rel_idx.map (List.drop ((data.shape.length - 1) / 2))
    let squeezed := rel_idx.map fun ij =>
      (List.range (data.shape.getLastD 0)).map fun k => data.entry (ij ++ [k])
    .ok data
  else .error "ValueError: array split does not result in an equal division"

/-- The edges component of `Volume.create_hist`'s result: the computed edge
vectors for a non-empty volume, or the placeholder tuple `(0, 0, 0)` for an
empty one. -/
inductive HistEdges where
  | placeholder : HistEdges
  | computed : List (List ℚ) → HistEdges
deriving DecidableEq

/-- Model of `Volume.create_hist`: for a non-empty volume, build the edges, histogram
the sample matrix, optionally apply the censor correction, and cast to int16;
for an empty volume, return `np.zeros((x_pixels, y_pixels, z_pixels),
dtype=np.int16)` with the placeholder edges `(0, 0, 0)`. -/
def Volume.create_hist (v : Volume) : Except String (NDArray × HistEdges) :=
  if v.empty = false then
    match v.create_hist_edges with
    | .error e => .error e
    | .ok (list_of_edges, _num_of_dims) =>
      let hist := histogramdd (dataToBeHist v.data) list_of_edges
      match (if v.censor then censor_correction hist else .ok hist) with
      | .error e => .error e
      | .ok hist2 => .ok (astype_int16 hist2, HistEdges.computed list_of_edges)
  else
    .ok (np_zeros [v.x_pixels, v.y_pixels, v.z_pixels], HistEdges.placeholder)

/-! ## movie_tools: Movie memory outputs -/

/-- The per-channel accumulators created by `Movie.__create_outputs` when
`'memory'` is requested: `summed_mem` (running elementwise sum, initialized to
the scalar 0) and `stack` (ordered deque of per-volume histograms). -/
structure MemoryState (H : Type) where
  summed_mem : Nat → H
  stack : Nat → List H

/-- The initial accumulators: `summed_mem = {i: 0}`, `stack = {i: deque()}`. -/
def init_memory (H : Type) [Zero H] : MemoryState H :=
  { summed_mem := fun _ => 0, stack := fun _ => [] }

/-- Model of `Movie.__create_memory_output`: append the volume's histogram to the
channel's stack and add it to the channel's running sum. -/
def create_memory_output [Add H] (s : MemoryState H) (data : H) (channel : Nat) :
    MemoryState H :=
  { stack := Function.update s.stack channel (s.stack channel ++ [data]),
    summed_mem := Function.update s.summed_mem channel (s.summed_mem channel + data) }

/-- The `memory`-output portion of `Movie.__create_outputs`: for each channel
`1..num_of_channels` and each volume index `0..num_of_vols-1` in order, feed
that volume's histogram (`hists chan idx`) to `create_memory_output`.
(`Movie.__convert_deque_to_arr` then stacks each channel's deque into one
array whose leading dimension is the volume count; a Lean list keeps that
ordered sequence as-is.) -/
def run_memory_outputs (H : Type) [Zero H] [Add H]
    (num_of_channels num_of_vols : Nat) (hists : Nat → Nat → H) : MemoryState H :=
  ((List.range num_of_channels).map (· + 1)).foldl
    (fun s chan =>
      (List.range num_of_vols).foldl
        (fun s2 idx => create_memory_output s2 (hists chan idx) chan) s)
    (init_memory H)

/-! ## Claim C3 -/

/-- Claim C3: for every Volume constructed with `empty = True`, `create_hist`
returns the all-zero signed-16-bit array of shape
`(x_pixels, y_pixels, z_pixels)` together with the placeholder edges, and
raises no exception, for all pixel counts and other volume parameters. -/
theorem create_hist_empty_volume (v : Volume) (h : v.empty = true) :
    v.create_hist =
      .ok (np_zeros [v.x_pixels, v.y_pixels, v.z_pixels], HistEdges.placeholder) ∧
    ∀ ix : List Nat,
      (np_zeros [v.x_pixels, v.y_pixels, v.z_pixels]).entry ix = 0 ∧
      -(2 ^ 15) ≤ (np_zeros [v.x_pixels, v.y_pixels, v.z_pixels]).entry ix ∧
      (np_zeros [v.x_pixels, v.y_pixels, v.z_pixels]).entry ix < 2 ^ 15 := by
  refine ⟨?_, fun ix => ⟨rfl, by norm_num [np_zeros], by norm_num [np_zeros]⟩⟩
  unfold Volume.create_hist
  simp [h]

/-- Witness for C3 at a concrete empty volume. -/
theorem create_hist_empty_volume_witness :
    ({ data := { time_rel_frames := [], time_rel_line := [] }, empty := true } : Volume).empty = true ∧
    ({ data := { time_rel_frames := [], time_rel_line := [] }, empty := true } : Volume).create_hist =
      .ok (np_zeros [512, 512, 1], HistEdges.placeholder) :=
  ⟨rfl, (create_hist_empty_volume
      { data := { time_rel_frames := [], time_rel_line := [] }, empty := true } rfl).1⟩

/-! ## Claim C9 -/

/-- Claim C9: for every 3-dimensional histogram array, the censor-correction
post-pass applied by `create_hist` when `censor=True` returns the histogram
unchanged — it computes the index set of bins whose summed count across the
last axis exceeds 1, and a squeezed sub-array, but never writes back into the
data, so the returned array equals the input array (a no-op). -/
theorem censor_correction_is_noop (data : NDArray) (h : data.shape.length = 3) :
    censor_correction data = .ok data := by
  unfold censor_correction
  rw [h]
  rfl

/-- Witness for C9 at a concrete 3-D array. -/
theorem censor_correction_is_noop_witness :
    (np_zeros [1, 1, 1]).shape.length = 3 ∧
    censor_correction (np_zeros [1, 1, 1]) = .ok (np_zeros [1, 1, 1]) :=
  ⟨rfl, censor_correction_is_noop (np_zeros [1, 1, 1]) rfl⟩

/-! ## Claim C10 -/

/-- Claim C10: whenever a Frames table is present, `validate_frame_input`
unconditionally prepends a zero-time frame row, so the reconciled Frames
series always begins at time 0, and gains a duplicate zero entry when the
first recorded frame is already at time 0. -/
theorem validate_frame_input_prepends_zero
    (d : DictOfData) (cols : Nat) (line_delta num_of_lines last_event_time : ℤ)
    (bidir : Bool) (fr : List Nat)
    (h1 : line_delta ≠ -1) (h2 : num_of_lines ≠ -1) (h3 : last_event_time ≠ -1)
    (h4 : cols ≠ 0) (h5 : d.frames = some fr) :
    validate_frame_input d cols line_delta num_of_lines last_event_time bidir =
      .ok { d with frames := some (0 :: fr) } ∧
    (0 :: fr).head? = some 0 ∧
    (fr.head? = some 0 → 2 ≤ (0 :: fr).count 0) := by
  refine ⟨?_, rfl, ?_⟩
  · unfold validate_frame_input
    simp [h1, h2, h3, h4, h5]
  · intro h
    cases fr with
    | nil => simp at h
    | cons a t =>
      simp at h
      subst h
      simp [List.count_cons]

/-- Witness for C10 at a concrete Frames table whose first marker is at 0. -/
theorem validate_frame_input_prepends_zero_witness :
    ((1 : ℤ) ≠ -1) ∧
    validate_frame_input { frames := some [0, 40, 80] } 1 1 1 1 false =
      .ok { frames := some [0, 0, 40, 80] } ∧
    2 ≤ ([0, 0, 40, 80] : List Nat).count 0 :=
  ⟨by decide,
   (validate_frame_input_prepends_zero { frames := some [0, 40, 80] } 1 1 1 1 false
      [0, 40, 80] (by decide) (by decide) (by decide) (by decide) rfl).1,
   (validate_frame_input_prepends_zero { frames := some [0, 40, 80] } 1 1 1 1 false
      [0, 40, 80] (by decide) (by decide) (by decide) (by decide) rfl).2.2 rfl⟩

/-! ## Claim C4 -/

/-- Claim C4 (code bug): in the unidirectional `keep_unidir` mode the function
never creates the `time_rel_line` column (the fold-into-previous-line branch
assigns the *row* `df.loc['Lines']` instead of a column), so the final filter
`df.loc[:, 'time_rel_line'] >= 0` raises a KeyError instead of returning a
table; evaluated here on a one-photon table whose photon sits in an uneven
line. -/
theorem rectify_keep_unidir_raises :
    rectify_photons_in_uneven_lines [⟨5, 2, 1⟩] [0, 10, 20] false 0 true =
      .error "KeyError: 'time_rel_line'" := rfl

/-! ## Claim C1 -/

/-- Lemma: `npUnique` returns a strictly increasing list. -/
theorem npUnique_sorted_lt (l : List Nat) : List.Sorted (· < ·) (npUnique l) := by
  have hs : List.Sorted (· ≤ ·) (npUnique l) :=
    List.sorted_insertionSort (· ≤ ·) l.dedup
  have hn : (npUnique l).Nodup :=
    (List.perm_insertionSort (· ≤ ·) l.dedup).nodup_iff.mpr (List.nodup_dedup l)
  exact hs.lt_of_le hn

/-- Lemma: `npUnique` has one element per distinct value. -/
theorem npUnique_length (l : List Nat) : (npUnique l).length = l.dedup.length :=
  (List.perm_insertionSort (· ≤ ·) l.dedup).length_eq

/-- Lemma: `npUnique` of a non-empty list is non-empty. -/
theorem npUnique_ne_nil {l : List Nat} (h : l ≠ []) : npUnique l ≠ [] := by
  intro hc
  have hlen := npUnique_length l
  rw [hc] at hlen
  exact h ((List.dedup_eq_nil l).mp (List.length_eq_zero.mp hlen.symm))

/-- Claim C1: for every allocated photon table, `Movie.list_of_volume_times`
returns exactly (number of unique Frame start values) + 1 boundaries: the
unique Frame starts in increasing order followed by one appended closing
boundary equal to the last unique start plus the median inter-frame
difference when more than one volume exists, or plus `max(time_rel_frames)`
when exactly one volume exists (the sum being truncated to uint64). -/
theorem list_of_volume_times_spec (frames_level time_rel_frames : List Nat)
    (h1 : frames_level ≠ []) (h2 : time_rel_frames ≠ []) :
    ∃ boundary,
      list_of_volume_times frames_level time_rel_frames =
        .ok (npUnique frames_level ++ [boundary]) ∧
      boundary = (npUnique frames_level).getLastD 0 +
        (if 1 < (npUnique frames_level).length then
          medianFloorNat (List.zipWith (fun b a => b - a)
            (npUnique frames_level).tail (npUnique frames_level))
         else time_rel_frames.max?.getD 0) ∧
      (npUnique frames_level ++ [boundary]).length = frames_level.dedup.length + 1 ∧
      List.Sorted (· < ·) (npUnique frames_level) := by
  obtain ⟨last, hlast⟩ : ∃ a, (npUnique frames_level).getLast? = some a :=
    Option.isSome_iff_exists.mp (List.getLast?_isSome.mpr (npUnique_ne_nil h1))
  have hlastD : (npUnique frames_level).getLastD 0 = last := by
    rw [List.getLastD_eq_getLast?, hlast]; rfl
  refine ⟨(npUnique frames_level).getLastD 0 +
      (if 1 < (npUnique frames_level).length then
        medianFloorNat (List.zipWith (fun b a => b - a)
          (npUnique frames_level).tail (npUnique frames_level))
       else time_rel_frames.max?.getD 0), ?_, rfl, ?_, npUnique_sorted_lt frames_level⟩
  · simp only [list_of_volume_times]
    rw [hlast]
    by_cases hlen : 1 < (npUnique frames_level).length
    · simp [hlen, hlastD, hlast]
    · obtain ⟨m, hm⟩ : ∃ m, time_rel_frames.max? = some m := by
        cases e : time_rel_frames.max? with
        | none => exact absurd (List.max?_eq_none_iff.mp e) h2
        | some m => exact ⟨m, rfl⟩
      simp [hlen, hm, hlastD, hlast]
  · simp [npUnique_length]

/-- Witness for C1: frame level values `[10, 0, 10, 20]` (three unique
starts). -/
theorem list_of_volume_times_spec_witness :
    ([10, 0, 10, 20] : List Nat) ≠ [] ∧ ([7] : List Nat) ≠ [] ∧
    ∃ boundary,
      list_of_volume_times [10, 0, 10, 20] [7] =
        .ok (npUnique [10, 0, 10, 20] ++ [boundary]) ∧
      boundary = (npUnique [10, 0, 10, 20]).getLastD 0 +
        (if 1 < (npUnique [10, 0, 10, 20]).length then
          medianFloorNat (List.zipWith (fun b a => b - a)
            (npUnique [10, 0, 10, 20]).tail (npUnique [10, 0, 10, 20]))
         else ([7] : List Nat).max?.getD 0) ∧
      (npUnique [10, 0, 10, 20] ++ [boundary]).length =
        ([10, 0, 10, 20] : List Nat).dedup.length + 1 ∧
      List.Sorted (· < ·) (npUnique [10, 0, 10, 20]) :=
  ⟨by decide, by decide, list_of_volume_times_spec [10, 0, 10, 20] [7]
    (by decide) (by decide)⟩

/-! ## Claim C5 -/

/-- Unfolding lemma for `listDiffs` on two or more elements. -/
theorem listDiffs_cons_cons (a b : Nat) (t : List Nat) :
    listDiffs (a :: b :: t) = ((b : ℤ) - (a : ℤ)) :: listDiffs (b :: t) := rfl

/-- The successive differences of a `(· ≤ ·)`-sorted list are nonnegative. -/
theorem listDiffs_nonneg {l : List Nat} (hl : List.Sorted (· ≤ ·) l) :
    ∀ x ∈ listDiffs l, 0 ≤ x := by
  induction l with
  | nil => intro x hx; simp [listDiffs] at hx
  | cons a t ih =>
    cases t with
    | nil => intro x hx; simp [listDiffs] at hx
    | cons b t2 =>
      intro x hx
      rw [listDiffs_cons_cons] at hx
      rcases List.mem_cons.mp hx with h | h
      · subst h
        have hab : a ≤ b := (List.sorted_cons.mp hl).1 b (List.mem_cons_self b t2)
        omega
      · exact ih (List.sorted_cons.mp hl).2 x h

/-- The mean successive difference of a sorted list is nonnegative. -/
theorem meanDiff_nonneg {l : List Nat} (hl : List.Sorted (· ≤ ·) l) :
    0 ≤ ((listDiffs l).sum : ℚ) / ((l.length - 1 : Nat) : ℚ) := by
  apply div_nonneg
  · exact_mod_cast List.sum_nonneg (listDiffs_nonneg hl)
  · exact_mod_cast Nat.zero_le _

/-- Claim C5: for every non-empty volume, with `ls` the sorted distinct Line
boundaries of its data — (i) more than one boundary but fewer than `x_pixels`
fails with the insufficient-data `ValueError`; (ii) at least `x_pixels`
boundaries yields exactly `x_pixels + 1` edges, the first `x_pixels` sorted
boundaries plus one extra at the last kept boundary plus the (floored) mean
inter-boundary difference; (iii) exactly one boundary synthesizes a second
edge at that boundary plus the volume's duration. -/
theorem volume_create_line_array_spec (v : Volume) :
    (1 < (v.data.lines_categories.insertionSort (· ≤ ·)).length →
      (v.data.lines_categories.insertionSort (· ≤ ·)).length < v.x_pixels →
      v.create_line_array = .error "ValueError: Not enough line events in volume.") ∧
    (∀ ls, ls = v.data.lines_categories.insertionSort (· ≤ ·) →
      1 < ls.length → 1 ≤ v.x_pixels → v.x_pixels ≤ ls.length →
      v.create_line_array = .ok (ls.take v.x_pixels ++
        [ls.getD (v.x_pixels - 1) 0 +
          (⌊((listDiffs ls).sum : ℚ) / ((ls.length - 1 : Nat) : ℚ)⌋).toNat]) ∧
      (ls.take v.x_pixels ++
        [ls.getD (v.x_pixels - 1) 0 +
          (⌊((listDiffs ls).sum : ℚ) / ((ls.length - 1 : Nat) : ℚ)⌋).toNat]).length =
        v.x_pixels + 1) ∧
    (∀ a, v.data.lines_categories.insertionSort (· ≤ ·) = [a] →
      v.create_line_array = .ok [a, a + v.end_time]) := by
  refine ⟨?_, ?_, ?_⟩
  · intro hgt hlt
    unfold Volume.create_line_array
    rw [if_pos hgt, if_pos hlt]
  · intro ls hls hgt hx1 hxle
    have hsorted : List.Sorted (· ≤ ·) ls := by
      rw [hls]; exact List.sorted_insertionSort (· ≤ ·) _
    have hmean : 0 ≤ ((listDiffs ls).sum : ℚ) / ((ls.length - 1 : Nat) : ℚ) :=
      meanDiff_nonneg hsorted
    constructor
    · unfold Volume.create_line_array
      rw [← hls, if_pos hgt, if_neg (by omega), if_neg (by omega)]
      have hfloor :
          (⌊((ls.getD (v.x_pixels - 1) 0 : Nat) : ℚ) +
            ((listDiffs ls).sum : ℚ) / ((ls.length - 1 : Nat) : ℚ)⌋).toNat =
          ls.getD (v.x_pixels - 1) 0 +
            (⌊((listDiffs ls).sum : ℚ) / ((ls.length - 1 : Nat) : ℚ)⌋).toNat := by
        have hcast : ((ls.getD (v.x_pixels - 1) 0 : Nat) : ℚ) =
            (((ls.getD (v.x_pixels - 1) 0 : Nat) : ℤ) : ℚ) := by push_cast; rfl
        rw [hcast, Int.floor_int_add]
        rw [Int.toNat_add (by positivity) (Int.floor_nonneg.mpr hmean)]
        simp
      simp only [hfloor]
    · rw [List.length_append, List.length_take]
      simp [min_eq_left hxle]
  · intro a ha
    unfold Volume.create_line_array
    rw [ha]
    norm_num

/-- The concrete non-empty volume used to witness C5: four distinct line
boundaries and two pixels per row. -/
def fourLineVolume : Volume :=
  { data := { time_rel_frames := [], time_rel_line := [], lines_categories := [0, 10, 20, 30] },
    x_pixels := 2 }

/-- Witness for C5 part (ii): four boundaries, two pixels. -/
theorem volume_create_line_array_spec_witness :
    (1 : Nat) ≤ 2 ∧ (2 : Nat) ≤ 4 ∧
    fourLineVolume.create_line_array = .ok [0, 10, 20] := by
  refine ⟨by decide, by decide, ?_⟩
  have h := (volume_create_line_array_spec fourLineVolume).2.1
    [0, 10, 20, 30] (by decide) (by decide) (by decide) (by decide)
  rw [h.1]
  norm_num [listDiffs, fourLineVolume]
  decide

/-! ## Claim C7 -/

/-- A defined mean requires at least two samples. -/
theorem meanDiff_some_len {l : List Nat} {m : ℚ} (h : meanDiff? l = some m) :
    2 ≤ l.length := by
  unfold meanDiff? at h
  by_cases hl : l.length ≤ 1
  · rw [if_pos hl] at h; cases h
  · omega

/-- Claim C7 (amended): when a Lines table is present, passes the corruption
test, and has a positive mean spacing `m`, `validate_line_input` prepends a
synthetic zero-time line exactly when the first recorded line's offset from
the mean spacing is within 5% of that spacing (`|Lines[0] - m| < m/20`), and
otherwise keeps the Lines table as-is; in particular (see the counterexample)
a first line at time 9 with mean spacing 10 has ratio 1/10 and is *not*
prepended. -/
theorem validate_line_input_zero_time_rule
    (d : DictOfData) (cols : Nat) (num_of_lines num_of_frames last_event_time : ℤ)
    (ll : List Nat) (m : ℚ)
    (h1 : num_of_lines ≠ -1) (h2 : num_of_frames ≠ -1) (h3 : last_event_time ≠ -1)
    (h4 : cols ≠ 0) (h5 : d.lines = some ll)
    (h6 : (linesCorruptCount ll : ℚ) / (ll.length : ℚ) < 1/10)
    (h7 : meanDiff? ll = some m) (h8 : 0 < m) :
    validate_line_input d cols num_of_lines num_of_frames last_event_time =
      .ok ((if |((ll.getD 0 0 : ℤ) : ℚ) - m| < m / 20
            then { d with lines := some (0 :: ll) } else d), some m) := by
  have hlen : 2 ≤ ll.length := meanDiff_some_len h7
  have hngt : ¬((linesCorruptCount ll : ℚ) / (ll.length : ℚ) > 1/10) := lt_asymm h6
  have hiff : (m ≠ 0 ∧ |((ll.getD 0 0 : ℤ) : ℚ) - m| / m < 1/20) ↔
      (|((ll.getD 0 0 : ℤ) : ℚ) - m| < m / 20) := by
    constructor
    · rintro ⟨-, hdiv⟩
      rw [div_lt_iff₀ h8] at hdiv
      linarith
    · intro hd
      refine ⟨ne_of_gt h8, ?_⟩
      rw [div_lt_iff₀ h8]
      linarith
  simp only [validate_line_input, h5]
  rw [if_neg h1, if_neg h2, if_neg h3, if_neg h4,
    if_neg (by omega : ¬ ll.length = 0),
    if_neg (fun hc => hngt hc.1), if_neg (fun hc => hngt hc.1), if_pos h6, h7]
  show (if m ≠ 0 ∧ |((ll.getD 0 0 : ℤ) : ℚ) - m| / m < 1/20 then
        Except.ok ({ d with lines := some (0 :: ll) }, some m)
      else Except.ok (d, some m)) =
    Except.ok ((if |((ll.getD 0 0 : ℤ) : ℚ) - m| < m / 20
        then { d with lines := some (0 :: ll) } else d), some m)
  rw [if_congr hiff rfl rfl]
  by_cases hd : |((ll.getD 0 0 : ℤ) : ℚ) - m| < m / 20
  · rw [if_pos hd, if_pos hd]
  · rw [if_neg hd, if_neg hd]

/-- Witness for the amended C7 at Lines = [10, 20, 30] (first line within 5%
of the mean spacing 10, so a zero-time line is prepended). -/
theorem validate_line_input_zero_time_rule_witness :
    meanDiff? [10, 20, 30] = some 10 ∧ (0 : ℚ) < 10 ∧
    validate_line_input { lines := some [10, 20, 30] } 1 1 1 100 =
      .ok ({ lines := some [0, 10, 20, 30] }, some 10) := by
  have hm : meanDiff? [10, 20, 30] = some 10 := by
    norm_num [meanDiff?, listDiffs]
  refine ⟨hm, by norm_num, ?_⟩
  have h := validate_line_input_zero_time_rule { lines := some [10, 20, 30] } 1 1 1 100
    [10, 20, 30] 10 (by decide) (by decide) (by decide) (by decide) rfl
    (by norm_num [show linesCorruptCount [10, 20, 30] = 0 from rfl]) hm (by norm_num)
  rw [h]
  norm_num

/-- Claim C7 counterexample: Lines = [9, 19, 29] (first recorded line at time
9, mean spacing 10).  The zeroth-line-delta ratio is |9 - 10|/10 = 1/10, not
below 0.05, so the table is returned unchanged — no synthetic zero-time line
is prepended, contradicting the claim's concrete instance. -/
theorem validate_line_input_first_line_9_kept :
    validate_line_input { lines := some [9, 19, 29] } 1 1 1 100 =
      .ok ({ lines := some [9, 19, 29] }, some 10) := by
  have hc : linesCorruptCount [9, 19, 29] = 0 := rfl
  have hm : meanDiff? [9, 19, 29] = some 10 := by
    norm_num [meanDiff?, listDiffs]
  simp only [validate_line_input, hc, hm]
  norm_num

/-! ## Claim C8 -/

/-- For an integer difference `v`, lying between `floor` and `ceil` of the
theoretical interval is the same as lying strictly within one bin of it. -/
theorem floor_ceil_window (v : ℤ) (T : ℚ) :
    (v ≤ ⌈T⌉ ∧ ⌊T⌋ ≤ v) ↔ |(v : ℚ) - T| < 1 := by
  rw [abs_sub_lt_iff]
  constructor
  · rintro ⟨h1, h2⟩
    constructor
    · have h3 : (v - 1 : ℤ) < ⌈T⌉ := by omega
      have h4 := Int.lt_ceil.mp h3
      push_cast at h4
      linarith
    · have h3 : ⌊T⌋ < v + 1 := by omega
      have h4 := Int.floor_lt.mp h3
      push_cast at h4
      linarith
  · rintro ⟨h1, h2⟩
    constructor
    · have h3 : ((v - 1 : ℤ) : ℚ) < T := by push_cast; linarith
      have h4 := Int.lt_ceil.mpr h3
      omega
    · have h3 : T < ((v + 1 : ℤ) : ℚ) := by push_cast; linarith
      have h4 := Int.floor_lt.mpr h3
      omega

/-- Modelled from the claim's words: the pulses (beyond the first) whose
successive time difference lies within one bin of the theoretical inter-pulse
interval. -/
def laserKeptWithinOneBin (pulses : List Nat) (interval : ℚ) : List Nat :=
  ((List.range pulses.length).filter fun i =>
    decide (1 ≤ i) &&
      decide (|(((pulses.getD i 0 : ℤ) - (pulses.getD (i - 1) 0 : ℤ) : ℤ) : ℚ) -
        interval| < 1)).map fun i => pulses.getD i 0

/-- Claim C8: `validate_laser_input` keeps exactly those pulses whose
successive difference lies within one bin of `1/(reprate*binwidth)`, always
retains the first pulse at the head of the returned train, and warns whenever
more than 10% of the input pulses are discarded. -/
theorem validate_laser_input_spec (pulses : List Nat) (laser_freq binwidth : ℚ)
    (h : pulses ≠ []) :
    (validate_laser_input pulses laser_freq binwidth).1 =
      pulses.getD 0 0 :: laserKeptWithinOneBin pulses (1 / (laser_freq * binwidth)) ∧
    ((pulses.length : ℚ) -
        (1 + ((laserKeptWithinOneBin pulses (1 / (laser_freq * binwidth))).length : ℚ)) >
        (pulses.length : ℚ) / 10 →
      (validate_laser_input pulses laser_freq binwidth).2 = true) := by
  have hfilter :
      ((List.range pulses.length).filter fun i =>
        decide (1 ≤ i) &&
          decide ((pulses.getD i 0 : ℤ) - (pulses.getD (i - 1) 0 : ℤ) ≤
            ⌈1 / (laser_freq * binwidth)⌉) &&
          decide (⌊1 / (laser_freq * binwidth)⌋ ≤
            (pulses.getD i 0 : ℤ) - (pulses.getD (i - 1) 0 : ℤ))) =
      ((List.range pulses.length).filter fun i =>
        decide (1 ≤ i) &&
          decide (|(((pulses.getD i 0 : ℤ) - (pulses.getD (i - 1) 0 : ℤ) : ℤ) : ℚ) -
            1 / (laser_freq * binwidth)| < 1)) := by
    apply List.filter_congr
    intro i _
    rw [← Bool.decide_and, ← Bool.decide_and, ← Bool.decide_and]
    apply decide_eq_decide.mpr
    rw [and_assoc]
    exact and_congr_right fun _ => floor_ceil_window _ _
  constructor
  · simp only [validate_laser_input, laserKeptWithinOneBin]
    rw [hfilter]
    cases pulses with
    | nil => exact absurd rfl h
    | cons p t => simp
  · intro hgt
    simp only [validate_laser_input]
    rw [decide_eq_true_eq]
    have hlen : ((List.range pulses.length).filter fun i =>
        decide (1 ≤ i) &&
          decide ((pulses.getD i 0 : ℤ) - (pulses.getD (i - 1) 0 : ℤ) ≤
            ⌈1 / (laser_freq * binwidth)⌉) &&
          decide (⌊1 / (laser_freq * binwidth)⌋ ≤
            (pulses.getD i 0 : ℤ) - (pulses.getD (i - 1) 0 : ℤ))).length =
        (laserKeptWithinOneBin pulses (1 / (laser_freq * binwidth))).length := by
      rw [hfilter, laserKeptWithinOneBin, List.length_map]
    rw [List.length_map, hlen]
    linarith

/-- Witness for C8: four pulses with interval 10; the pulse at 23 is
discarded, the first pulse retained. -/
theorem validate_laser_input_spec_witness :
    ([0, 10, 20, 23] : List Nat) ≠ [] ∧
    (validate_laser_input [0, 10, 20, 23] 10 (1/100)).1 =
      0 :: laserKeptWithinOneBin [0, 10, 20, 23] (1 / (10 * (1/100))) :=
  ⟨by decide, (validate_laser_input_spec [0, 10, 20, 23] 10 (1/100) (by decide)).1⟩

/-! ## Claim C2 -/

/-- A recorded line count is always strictly below `lines_per_frame`
times (quotient + 1), so the "excessive number of lines" branch of
`calc_last_event_time` can never be taken. -/
theorem lines_lt_lpf_mul (n : Nat) (lpf : ℤ) (h0 : 1 ≤ lpf) :
    (n : ℤ) < lpf * ((n / lpf.toNat : Nat) + 1) := by
  have hpos : 0 < lpf.toNat := by omega
  have hcast : ((lpf.toNat : ℤ)) = lpf := Int.toNat_of_nonneg (by omega)
  have hexpand : lpf * (((n / lpf.toNat : Nat) : ℤ) + 1) =
      ((lpf.toNat * (n / lpf.toNat) : Nat) : ℤ) + lpf := by
    push_cast
    rw [hcast]
    ring
  rw [hexpand]
  have hmod : n % lpf.toNat < lpf.toNat := Nat.mod_lt _ hpos
  have hdm : lpf.toNat * (n / lpf.toNat) + n % lpf.toNat = n := Nat.div_add_mod _ _
  generalize hgen1 : lpf.toNat * (n / lpf.toNat) = p at hdm ⊢
  generalize hgen2 : n % lpf.toNat = r at hdm hmod
  generalize hgen3 : lpf.toNat = k at hmod hcast
  omega

/-- Claim C2: `calc_last_event_time` follows the stated priority order —
Frames first (last frame + truncated mean inter-frame difference, doubled
last frame time for a single frame), then Lines by the quotient/remainder
rule (exact multiple: last line + mean line difference; remainder: last line
plus proportional padding; the excess-lines branch, which would use the last
complete frame's boundary plus one frame span, is unreachable), then the
maximum timestamp across the raw PMT channels; and for
Frames = [0,10,...,90] with one line per frame it returns 100. -/
theorem calc_last_event_time_priority (d : DictOfData) (lpf : ℤ)
    (h0 : 1 ≤ lpf) (hp : d.pmt1 ≠ none) :
    (∀ fl last, d.frames = some fl → fl.getLast? = some last → fl.length = 1 →
      calc_last_event_time d lpf = .ok (2 * (last : ℤ))) ∧
    (∀ fl last m, d.frames = some fl → fl.getLast? = some last →
      meanDiff? fl = some m →
      calc_last_event_time d lpf = .ok ((last : ℤ) + pyTrunc m)) ∧
    (∀ ll, d.frames = none → d.lines = some ll →
      (ll.length : ℤ) > lpf * ((ll.length / lpf.toNat : Nat) + 1) →
      calc_last_event_time d lpf =
        .ok ((ll.getD (ll.length / lpf.toNat * lpf.toNat - 1) 0 : ℤ) +
          ((ll.getD (ll.length / lpf.toNat * lpf.toNat - 1) 0 : ℤ) -
            (ll.getD ((ll.length / lpf.toNat - 1) * lpf.toNat) 0 : ℤ)))) ∧
    (∀ ll last m, d.frames = none → d.lines = some ll → ll.getLast? = some last →
      meanDiff? ll = some m → ll.length % lpf.toNat = 0 →
      calc_last_event_time d lpf = .ok (pyTrunc ((last : ℚ) + m))) ∧
    (∀ ll last m, d.frames = none → d.lines = some ll → ll.getLast? = some last →
      meanDiff? ll = some m → ll.length % lpf.toNat ≠ 0 →
      calc_last_event_time d lpf =
        .ok ((last : ℤ) + ((lpf - (ll.length % lpf.toNat : ℤ)) + 1) * pyTrunc m)) ∧
    (∀ p1 mx, d.frames = none → d.lines = none → d.pmt1 = some p1 →
      p1.max? = some mx →
      calc_last_event_time d lpf =
        .ok (((match d.pmt2 with
               | none => mx
               | some p2 => max mx (p2.foldl max 0)) : Nat) : ℤ)) ∧
    calc_last_event_time
      { pmt1 := some [50], frames := some [0, 10, 20, 30, 40, 50, 60, 70, 80, 90] } 1 =
      .ok 100 := by
  have hlt : ¬(lpf < 1) := by omega
  refine ⟨?_, ?_, ?_, ?_, ?_, ?_, ?_⟩
  · intro fl last hf hl hlen1
    simp [calc_last_event_time, hlt, hp, hf, hl, hlen1]
  · intro fl last m hf hl hm
    have h2 := meanDiff_some_len hm
    simp [calc_last_event_time, hlt, hp, hf, hl, hm, show fl.length ≠ 1 by omega]
  · intro ll hfn hll hgt
    exact absurd hgt (not_lt.mpr (le_of_lt (lines_lt_lpf_mul ll.length lpf h0)))
  · intro ll last m hfn hll hl hm hmod0
    have hnogt : ¬((ll.length : ℤ) > lpf * ((ll.length / lpf.toNat : Nat) + 1)) :=
      not_lt.mpr (le_of_lt (lines_lt_lpf_mul ll.length lpf h0))
    simp only [calc_last_event_time, hfn, hll, hl, hm]
    rw [if_neg hlt, if_neg hp, if_neg hnogt, if_pos hmod0]
  · intro ll last m hfn hll hl hm hmodne
    have hltb := lines_lt_lpf_mul ll.length lpf h0
    have hnogt : ¬((ll.length : ℤ) > lpf * ((ll.length / lpf.toNat : Nat) + 1)) :=
      not_lt.mpr (le_of_lt hltb)
    simp only [calc_last_event_time, hfn, hll, hl, hm]
    rw [if_neg hlt, if_neg hp, if_neg hnogt, if_neg hmodne, if_pos hltb]
    push_cast
    ring_nf
  · intro p1 mx hfn hln hp1 hmx
    cases hp2 : d.pmt2 with
    | none => simp [calc_last_event_time, hlt, hp, hfn, hln, hp1, hmx, hp2]
    | some p2 => simp [calc_last_event_time, hlt, hp, hfn, hln, hp1, hmx, hp2]
  · have hgl : ([0, 10, 20, 30, 40, 50, 60, 70, 80, 90] : List Nat).getLast? = some 90 := rfl
    have hml : meanDiff? [0, 10, 20, 30, 40, 50, 60, 70, 80, 90] = some 10 := by
      norm_num [meanDiff?, listDiffs]
    have hpt : pyTrunc 10 = 10 := by norm_num [pyTrunc]
    simp only [calc_last_event_time, hgl, hml]
    norm_num [hpt]
    exact fun hcontra => absurd hcontra (by simp)

/-- Witness for C2 with one line per frame and the scenario-A Frames table. -/
theorem calc_last_event_time_priority_witness :
    (1 : ℤ) ≤ 1 ∧
    ({ pmt1 := some [50],
       frames := some [0, 10, 20, 30, 40, 50, 60, 70, 80, 90] } : DictOfData).pmt1 ≠ none ∧
    calc_last_event_time
      { pmt1 := some [50], frames := some [0, 10, 20, 30, 40, 50, 60, 70, 80, 90] } 1 =
      .ok 100 :=
  ⟨by decide, by decide,
   (calc_last_event_time_priority
      { pmt1 := some [50], frames := some [0, 10, 20, 30, 40, 50, 60, 70, 80, 90] } 1
      (by decide) (by decide)).2.2.2.2.2.2⟩

/-! ## Claim C6 -/

/-- Effect of one channel's volume loop on the `stack` accumulators: the
processed channel gains the per-volume histograms in order, other channels
are untouched. -/
theorem fold_vols_stack {H : Type} [AddMonoid H] (h : Nat → H) (ch : Nat)
    (vols : List Nat) :
    ∀ (s : MemoryState H) (c : Nat),
      ((vols.foldl (fun s2 idx => create_memory_output s2 (h idx) ch) s).stack c) =
        s.stack c ++ (if c = ch then vols.map h else []) := by
  induction vols with
  | nil => intro s c; by_cases hc : c = ch <;> simp [hc]
  | cons a t ih =>
    intro s c
    rw [List.foldl_cons, ih]
    by_cases hc : c = ch
    · subst hc
      simp [create_memory_output, Function.update_same]
    · simp [create_memory_output, Function.update_noteq hc, hc]

/-- Effect of one channel's volume loop on the running sums. -/
theorem fold_vols_summed {H : Type} [AddMonoid H] (h : Nat → H) (ch : Nat)
    (vols : List Nat) :
    ∀ (s : MemoryState H) (c : Nat),
      ((vols.foldl (fun s2 idx => create_memory_output s2 (h idx) ch) s).summed_mem c) =
        s.summed_mem c + (if c = ch then (vols.map h).sum else 0) := by
  induction vols with
  | nil => intro s c; by_cases hc : c = ch <;> simp [hc]
  | cons a t ih =>
    intro s c
    rw [List.foldl_cons, ih]
    by_cases hc : c = ch
    · subst hc
      simp [create_memory_output, Function.update_same, add_assoc]
    · simp [create_memory_output, Function.update_noteq hc, hc]

/-- Effect of the channel loop on `stack`: each channel appearing once in the
(duplicate-free) channel list gains exactly its own histograms. -/
theorem fold_chans_stack {H : Type} [AddMonoid H] (hists : Nat → Nat → H) (M : Nat)
    (L : List Nat) :
    L.Nodup → ∀ (s : MemoryState H) (c : Nat),
      ((L.foldl (fun s chan => (List.range M).foldl
          (fun s2 idx => create_memory_output s2 (hists chan idx) chan) s) s).stack c) =
        s.stack c ++ (if c ∈ L then (List.range M).map (hists c) else []) := by
  induction L with
  | nil => intro _ s c; simp
  | cons a t ih =>
    intro hnd s c
    rw [List.foldl_cons, ih (List.nodup_cons.mp hnd).2, fold_vols_stack]
    by_cases hc : c = a
    · subst hc
      have hnotin : c ∉ t := (List.nodup_cons.mp hnd).1
      simp [hnotin]
    · simp [hc, List.mem_cons]

/-- Effect of the channel loop on the running sums. -/
theorem fold_chans_summed {H : Type} [AddMonoid H] (hists : Nat → Nat → H) (M : Nat)
    (L : List Nat) :
    L.Nodup → ∀ (s : MemoryState H) (c : Nat),
      ((L.foldl (fun s chan => (List.range M).foldl
          (fun s2 idx => create_memory_output s2 (hists chan idx) chan) s) s).summed_mem c) =
        s.summed_mem c + (if c ∈ L then ((List.range M).map (hists c)).sum else 0) := by
  induction L with
  | nil => intro _ s c; simp
  | cons a t ih =>
    intro hnd s c
    rw [List.foldl_cons, ih (List.nodup_cons.mp hnd).2, fold_vols_summed]
    by_cases hc : c = a
    · subst hc
      have hnotin : c ∉ t := (List.nodup_cons.mp hnd).1
      simp [hnotin]
    · simp [hc, List.mem_cons]

/-- Evaluating the sum of a list of two-argument functions pointwise. -/
theorem list_sum_apply_apply {x y : Nat} (l : List (Fin x → Fin y → ℤ))
    (i : Fin x) (j : Fin y) :
    l.sum i j = (l.map fun f => f i j).sum := by
  induction l with
  | nil => rfl
  | cons f t ih => simp [List.sum_cons, Pi.add_apply, ih]

/-- Claim C6: in a `memory`-output run over `C` channels and `M` volumes,
every channel `c` in `1..C` ends with `stack[c]` equal to the ordered list of
that channel's `M` per-volume histograms (an array of shape
`(M, x_pixels, y_pixels)` once stacked) and `summed_mem[c]` equal to their
elementwise sum. -/
theorem memory_output_stack_and_sum (C M x y : Nat)
    (hists : Nat → Nat → (Fin x → Fin y → ℤ)) (c : Nat) (h1 : 1 ≤ c) (h2 : c ≤ C) :
    (run_memory_outputs (Fin x → Fin y → ℤ) C M hists).stack c =
      (List.range M).map (hists c) ∧
    ((run_memory_outputs (Fin x → Fin y → ℤ) C M hists).stack c).length = M ∧
    (run_memory_outputs (Fin x → Fin y → ℤ) C M hists).summed_mem c =
      ((List.range M).map (hists c)).sum ∧
    ∀ i j, (run_memory_outputs (Fin x → Fin y → ℤ) C M hists).summed_mem c i j =
      ((List.range M).map fun v => hists c v i j).sum := by
  have hnd : ((List.range C).map (· + 1)).Nodup :=
    (List.nodup_range C).map (fun a b hab => by omega)
  have hmem : c ∈ (List.range C).map (· + 1) := by
    rw [List.mem_map]
    exact ⟨c - 1, by rw [List.mem_range]; omega, by omega⟩
  have hstack := fold_chans_stack hists M ((List.range C).map (· + 1)) hnd
    (init_memory (Fin x → Fin y → ℤ)) c
  have hsummed := fold_chans_summed hists M ((List.range C).map (· + 1)) hnd
    (init_memory (Fin x → Fin y → ℤ)) c
  rw [if_pos hmem] at hstack hsummed
  refine ⟨?_, ?_, ?_, ?_⟩
  · rw [run_memory_outputs, hstack]
    simp [init_memory]
  · rw [run_memory_outputs, hstack]
    simp [init_memory]
  · rw [run_memory_outputs, hsummed]
    simp [init_memory]
  · intro i j
    rw [run_memory_outputs, hsummed]
    simp only [init_memory, Pi.add_apply, Pi.zero_apply, zero_add]
    rw [list_sum_apply_apply, List.map_map]
    rfl

/-- Witness for C6: a 10-volume, 2-channel run with 1x1 histograms. -/
theorem memory_output_stack_and_sum_witness :
    (1 : Nat) ≤ 2 ∧ (2 : Nat) ≤ 2 ∧
    (run_memory_outputs (Fin 1 → Fin 1 → ℤ) 2 10 fun _ _ _ _ => 1).stack 2 =
      (List.range 10).map ((fun _ _ _ _ => 1 : Nat → Nat → Fin 1 → Fin 1 → ℤ) 2) ∧
    ((run_memory_outputs (Fin 1 → Fin 1 → ℤ) 2 10 fun _ _ _ _ => 1).stack 2).length = 10 :=
  ⟨by decide, by decide,
   (memory_output_stack_and_sum 2 10 1 1 (fun _ _ _ _ => 1) 2 (by decide) (by decide)).1,
   (memory_output_stack_and_sum 2 10 1 1 (fun _ _ _ _ => 1) 2 (by decide) (by decide)).2.1⟩
